import Mathlib

/-!
Shallow embedding of the CPU stress-test core of `main.py` (FastAPI app).

Scope: the load-generator core — the worker function `cpu_worker`, the
controller endpoints `start_cpu_stress`, `stop_cpu_stress`, `stress_status`,
and the module-level globals they share.  The `STRESS_TEST_FLAG` feature
gate (an environment check at the top of each endpoint) is the out-of-scope
boundary layer; it is modelled as enabled, so each embedded operation is the
body after the gate.

Modelling choices:
- wall-clock times and sleep durations are `ℚ` (Python floats carry real
  time values; no float rounding is relevant to any claim);
- the shared `multiprocessing.Value('i', 0)` counter is `Option ℤ` in the
  controller state (`none` = the Python global is `None`, i.e. never
  allocated); its storage type is a 32-bit signed C int whose arithmetic
  wraps silently, so the worker's locked increment is modelled as `inc32`,
  the increment followed by the two's-complement wrap `wrap32`;
- the shared stop flag is `Option Bool` likewise;
- `multiprocessing.Process` handles are opaque; we represent them by `ℕ`
  ids, and the observable actions of the controller and worker (terminate,
  spawn, set-stop-flag, join-with-timeout, sleep, counter increment) are
  recorded in an event trace;
- the Python dict `cpu_stress_status_data` becomes a record of `Option`
  fields (`none` = key absent); `dict.get(k, d)` becomes `Option.getD`,
  and a bare `dict[k]` on a possibly-missing key makes the embedded
  operation return `Option` (`none` = `KeyError`);
- the worker's calls to `time.time()` and reads of `stop_flag.value` are
  reads from an oracle `Env`, one stream index consumed per read, so the
  environment (scheduler, other processes flipping the flag) is arbitrary;
- both worker loops are given explicit fuel; running out of fuel returns
  the state reached so far with an empty remaining trace.
-/

/-- Observable actions of the controller and of a worker. -/
inductive Event where
  | terminate (pid : ℕ)
  | spawn (pid : ℕ)
  | setStopFlag
  | joinTimeout (pid : ℕ) (timeout : ℚ)
  | sleep (d : ℚ)
  | incr
deriving DecidableEq, Repr

/-- The Python dict `cpu_stress_status_data`; `none` models an absent key. -/
structure StatusData where
  running : Option Bool
  start_time : Option ℚ
  duration : Option ℤ
  end_time : Option ℚ
  load : Option ℤ
  workers : Option ℕ
deriving DecidableEq, Repr

/-- The empty dict `{}` the module starts with. -/
def StatusData.empty : StatusData :=
  { running := none, start_time := none, duration := none, end_time := none,
    load := none, workers := none }

/-- The module-level globals of `main.py` that the three endpoints share. -/
structure ControllerState where
  cpu_stress_processes : List ℕ
  global_iterations : Option ℤ
  stop_flag : Option Bool
  cpu_stress_end_time : Option ℚ
  cpu_stress_status_data : StatusData
deriving DecidableEq, Repr

/-- The globals as initialised at import time (lines 18-22 of `main.py`). -/
def initialState : ControllerState :=
  { cpu_stress_processes := []
    global_iterations := none
    stop_flag := none
    cpu_stress_end_time := none
    cpu_stress_status_data := StatusData.empty }

/-- Errors the core raises (`HTTPException(400)` on bad parameters). -/
inductive StressError where
  | invalidParameter
deriving DecidableEq, Repr

/-- JSON body returned by `start_cpu_stress` on success. -/
structure StartResponse where
  message : String
  duration : ℤ
  load : ℤ
  workers : ℕ
deriving DecidableEq, Repr

/-- JSON body returned by `stop_cpu_stress`. -/
structure StopResponse where
  message : String
deriving DecidableEq, Repr

/-- JSON body returned by `stress_status`. -/
structure StatusResponse where
  running : Bool
  remaining_seconds : ℤ
  iterations : ℤ
deriving DecidableEq, Repr

/-- Python `os.cpu_count() or 1`: `None` and `0` are falsy, giving `1`. -/
def workers_of (cpu_count : Option ℕ) : ℕ :=
  match cpu_count with
  | none => 1
  | some n => if n = 0 then 1 else n

/-- Python `int()` applied to a rational: truncation toward zero. -/
def int_py (q : ℚ) : ℤ :=
  if 0 ≤ q then ⌊q⌋ else -⌊-q⌋

/-- Two's-complement wrap to a 32-bit signed C int — the storage type of
`multiprocessing.Value('i', 0)`: stored values live in `[-2^31, 2^31)` and
arithmetic wraps silently (2^31 - 1 + 1 stores -2^31). -/
def wrap32 (z : ℤ) : ℤ :=
  (z + 2 ^ 31) % 2 ^ 32 - 2 ^ 31

/-- The locked `global_iterations.value += 1` of lines 37-38 of `main.py`:
a 32-bit signed increment, wrapping at the maximum. -/
def inc32 (c : ℤ) : ℤ :=
  wrap32 (c + 1)

/-- `start_cpu_stress(duration, load)` (lines 82-123 of `main.py`), after
the feature gate.  `now1` is the `time.time()` of line 95 and `now2` that of
line 104; `cpu_count` is what `os.cpu_count()` returned; fresh process
handles are represented by `0, 1, ...`.  Returns the HTTP outcome, the
post-state of the globals, and the trace of observable actions in program
order (old-process terminations, then new-process spawns). -/
def start_cpu_stress (s : ControllerState) (duration load : ℤ) (now1 now2 : ℚ)
    (cpu_count : Option ℕ) :
    Except StressError StartResponse × ControllerState × List Event :=
  if duration ≤ 0 ∨ ¬ (0 ≤ load ∧ load ≤ 100) then
    (Except.error StressError.invalidParameter, s, [])
  else
    let terminateEvents := s.cpu_stress_processes.map Event.terminate
    let end_time := now1 + (duration : ℚ)
    let workers := workers_of cpu_count
    let newPids := List.range workers
    let s' : ControllerState :=
      { cpu_stress_processes := newPids
        global_iterations := some 0
        stop_flag := some false
        cpu_stress_end_time := some end_time
        cpu_stress_status_data :=
          { running := some true, start_time := some now2,
            duration := some duration, end_time := some end_time,
            load := some load, workers := some workers } }
    (Except.ok { message := "CPU stress test started", duration := duration,
                 load := load, workers := workers },
     s', terminateEvents ++ newPids.map Event.spawn)

/-- `stop_cpu_stress()` (lines 135-142 of `main.py`), after the feature
gate: set the shared stop flag if one exists, `join(timeout=1)` each worker,
set `running = False` in the status dict, clear the process list. -/
def stop_cpu_stress (s : ControllerState) :
    StopResponse × ControllerState × List Event :=
  let flagEvents : List Event :=
    match s.stop_flag with
    | none => []
    | some _ => [Event.setStopFlag]
  let joinEvents := s.cpu_stress_processes.map (fun p => Event.joinTimeout p 1)
  ({ message := "CPU stress test stopped" },
   { s with stop_flag := s.stop_flag.map (fun _ => true)
            cpu_stress_processes := []
            cpu_stress_status_data :=
              { s.cpu_stress_status_data with running := some false } },
   flagEvents ++ joinEvents)

/-- Lines 156-159 of `main.py`: the local variable `remaining`.  The bare
index `cpu_stress_status_data["end_time"]` raises `KeyError` when the key
is missing, modelled by `none`. -/
def status_remaining (sd : StatusData) (now : ℚ) : Option ℚ :=
  if sd.running.getD false then
    sd.end_time.map (fun et => max 0 (et - now))
  else
    some 0

/-- `stress_status()` (lines 154-167 of `main.py`), after the feature gate:
compute `remaining`, read the counter (0 if never allocated), lazily flip
`running` to `False` when `now >= end_time` (default 0), and report the
flag as read after the flip, with `remaining` truncated by `int()`. -/
def stress_status (s : ControllerState) (now : ℚ) :
    Option (ControllerState × StatusResponse) :=
  (status_remaining s.cpu_stress_status_data now).map (fun remaining =>
    let iterations := s.global_iterations.getD 0
    let sd := s.cpu_stress_status_data
    let sd' := if sd.end_time.getD 0 ≤ now then { sd with running := some false }
               else sd
    ({ s with cpu_stress_status_data := sd' },
     { running := sd'.running.getD false
       remaining_seconds := int_py remaining
       iterations := iterations }))

/-- Oracle a worker runs against: `time k` is the value of the `k`-th read
the worker performs when that read is `time.time()`; `stopv k` is its value
when that read is `stop_flag.value`.  One index is consumed per read, so an
arbitrary environment (scheduler, concurrent flag writes) is admitted. -/
structure Env where
  time : ℕ → ℚ
  stopv : ℕ → Bool

/-- The inner busy loop of `cpu_worker` (lines 35-38 of `main.py`):
`while time.time() - start_busy < busy_time and not stop_flag.value:` do a
fixed unit of CPU-bound work and atomically increment the shared counter.
Arguments: fuel, oracle, next read index, `start_busy`, `busy_time`, the
counter value.  Returns the next read index, the counter, and the trace. -/
def busy_loop (fuel : ℕ) (env : Env) (i : ℕ) (start_busy busy_time : ℚ)
    (c : ℤ) : ℕ × ℤ × List Event :=
  match fuel with
  | 0 => (i, c, [])
  | fuel + 1 =>
    if env.time i - start_busy < busy_time then
      if env.stopv (i + 1) = false then
        let r := busy_loop fuel env (i + 2) start_busy busy_time (inc32 c)
        (r.1, r.2.1, Event.incr :: r.2.2)
      else (i + 2, c, [])
    else (i + 1, c, [])

/-- The outer duty-cycle loop of `cpu_worker` (lines 32-40 of `main.py`):
`while time.time() < end_time and not stop_flag.value:` record
`start_busy`, run the busy loop, then
`if idle_time > 0 and not stop_flag.value: time.sleep(idle_time)`.
Each busy loop gets fresh fuel `fuelI`; `fuelO` bounds the outer cycles. -/
def worker_loop (fuelO fuelI : ℕ) (env : Env) (i : ℕ)
    (end_time busy_time idle_time : ℚ) (c : ℤ) : ℕ × ℤ × List Event :=
  match fuelO with
  | 0 => (i, c, [])
  | fuelO + 1 =>
    if env.time i < end_time then
      if env.stopv (i + 1) = false then
        let start_busy := env.time (i + 2)
        let b := busy_loop fuelI env (i + 3) start_busy busy_time c
        if 0 < idle_time then
          if env.stopv b.1 = false then
            let r := worker_loop fuelO fuelI env (b.1 + 1) end_time busy_time
              idle_time b.2.1
            (r.1, r.2.1, b.2.2 ++ Event.sleep idle_time :: r.2.2)
          else
            let r := worker_loop fuelO fuelI env (b.1 + 1) end_time busy_time
              idle_time b.2.1
            (r.1, r.2.1, b.2.2 ++ r.2.2)
        else
          let r := worker_loop fuelO fuelI env b.1 end_time busy_time
            idle_time b.2.1
          (r.1, r.2.1, b.2.2 ++ r.2.2)
      else (i + 2, c, [])
    else (i + 1, c, [])

/-- `busy_time = cycle_time * (load / 100)` (line 30 of `main.py`). -/
def busy_time_of (cycle_time : ℚ) (load : ℤ) : ℚ :=
  cycle_time * ((load : ℚ) / 100)

/-- `idle_time = cycle_time - busy_time` (line 31 of `main.py`). -/
def idle_time_of (cycle_time : ℚ) (load : ℤ) : ℚ :=
  cycle_time - busy_time_of cycle_time load

/-- `cpu_worker(end_time, load, cycle_time, global_iterations, stop_flag)`
(lines 24-40 of `main.py`): compute the duty-cycle split and run the loop.
`c` is the shared counter's value at entry. -/
def cpu_worker (fuelO fuelI : ℕ) (env : Env) (i : ℕ) (end_time : ℚ)
    (load : ℤ) (cycle_time : ℚ) (c : ℤ) : ℕ × ℤ × List Event :=
  worker_loop fuelO fuelI env i end_time (busy_time_of cycle_time load)
    (idle_time_of cycle_time load) c

/-- A concrete mid-run controller state: one live worker, counter at 42,
stop flag allocated and clear, deadline 5. -/
def activeRunState : ControllerState :=
  { cpu_stress_processes := [0]
    global_iterations := some 42
    stop_flag := some false
    cpu_stress_end_time := some 5
    cpu_stress_status_data :=
      { running := some true, start_time := some 0, duration := some 5,
        end_time := some 5, load := some 100, workers := some 1 } }

/-- A concrete running state with 1.9 seconds left at `now = 0`. -/
def runState19 : ControllerState :=
  { cpu_stress_processes := [0]
    global_iterations := some 3
    stop_flag := some false
    cpu_stress_end_time := some (19 / 10)
    cpu_stress_status_data :=
      { running := some true, start_time := some 0, duration := some 2,
        end_time := some (19 / 10), load := some 50, workers := some 1 } }

/-- The post-state of a `stress_status` read on the initial state: the lazy
flip writes `running = False` into the previously empty dict. -/
def statusInitState : ControllerState :=
  { initialState with cpu_stress_status_data :=
      { StatusData.empty with running := some false } }

/-- The response of a `stress_status` read on the initial state. -/
def statusInitResponse : StatusResponse :=
  { running := false, remaining_seconds := 0, iterations := 0 }

/-! ### Helper lemmas about the worker loops -/

/-- Every busy-loop event is a counter increment, and the final counter is
the length-of-trace-fold wrapped increment of the initial value: each
locked increment is applied, none is lost. -/
theorem busy_loop_spec (fuel : ℕ) (env : Env) :
    ∀ (i : ℕ) (sb bt : ℚ) (c : ℤ),
      (busy_loop fuel env i sb bt c).2.1
          = inc32^[(busy_loop fuel env i sb bt c).2.2.length] c ∧
      ∀ e ∈ (busy_loop fuel env i sb bt c).2.2, e = Event.incr := by
  induction fuel with
  | zero => intro i sb bt c; simp [busy_loop]
  | succ n ih =>
    intro i sb bt c
    simp only [busy_loop]
    split_ifs with h1 h2
    · obtain ⟨hc, he⟩ := ih (i + 2) sb bt (inc32 c)
      refine ⟨?_, ?_⟩
      · simp [hc, Function.iterate_succ_apply]
      · intro e hmem
        rcases List.mem_cons.mp hmem with h | h
        · exact h
        · exact he e h
    · simp
    · simp

/-- With a non-positive busy budget and a clock that has not gone backwards
since `start_busy` was read, the busy loop exits at its first check:
no increment, no event. -/
theorem busy_loop_nonpos (fuel : ℕ) (env : Env) (i : ℕ) (sb bt : ℚ) (c : ℤ)
    (hbt : bt ≤ 0) (hsb : sb ≤ env.time i) :
    (busy_loop fuel env i sb bt c).2.1 = c ∧
      (busy_loop fuel env i sb bt c).2.2 = [] := by
  cases fuel with
  | zero => simp [busy_loop]
  | succ n =>
    have hlt : ¬ env.time i - sb < bt := by linarith
    simp [busy_loop, hlt]

/-- The duty-cycle loop's final counter is the n-fold wrapped increment of
its initial value, where n is the number of increment events in its trace:
every locked increment is applied, none is lost. -/
theorem worker_loop_iter (fuelO fuelI : ℕ) (env : Env) :
    ∀ (i : ℕ) (et bt it : ℚ) (c : ℤ),
      (worker_loop fuelO fuelI env i et bt it c).2.1 =
        inc32^[(worker_loop fuelO fuelI env i et bt it c).2.2.countP
               (fun e => decide (e = Event.incr))] c := by
  induction fuelO with
  | zero => intro i et bt it c; simp [worker_loop]
  | succ n ih =>
    intro i et bt it c
    simp only [worker_loop]
    have hb := busy_loop_spec fuelI env (i + 3) (env.time (i + 2)) bt c
    have hcount :
        (busy_loop fuelI env (i + 3) (env.time (i + 2)) bt c).2.2.countP
            (fun e => decide (e = Event.incr)) =
          (busy_loop fuelI env (i + 3) (env.time (i + 2)) bt c).2.2.length :=
      List.countP_eq_length.mpr (fun a ha => by simp [hb.2 a ha])
    split_ifs with h1 h2 h3 h4
    · dsimp only
      rw [ih, hb.1, ← Function.iterate_add_apply]
      congr 1
      simp [List.countP_append, List.countP_cons, hcount]
      omega
    · dsimp only
      rw [ih, hb.1, ← Function.iterate_add_apply]
      congr 1
      simp [List.countP_append, hcount]
      omega
    · dsimp only
      rw [ih, hb.1, ← Function.iterate_add_apply]
      congr 1
      simp [List.countP_append, hcount]
      omega
    · simp
    · simp

/-- A value already in 32-bit signed range is stored unchanged. -/
theorem wrap32_eq_self (z : ℤ) (h1 : -2 ^ 31 ≤ z) (h2 : z < 2 ^ 31) :
    wrap32 z = z := by
  unfold wrap32
  have e1 : (2 : ℤ) ^ 31 = 2147483648 := by norm_num
  have e2 : (2 : ℤ) ^ 32 = 4294967296 := by norm_num
  rw [e1, e2]
  rw [e1] at h1 h2
  omega

/-- The 32-bit store preserves the value modulo `2^32`. -/
theorem wrap32_emod (z : ℤ) : wrap32 z % 2 ^ 32 = z % 2 ^ 32 := by
  unfold wrap32
  have e1 : (2 : ℤ) ^ 31 = 2147483648 := by norm_num
  have e2 : (2 : ℤ) ^ 32 = 4294967296 := by norm_num
  rw [e1, e2]
  omega

/-- `n` wrapped increments add `n` modulo `2^32`: no update is lost. -/
theorem inc32_iter_emod (n : ℕ) : ∀ c : ℤ,
    (inc32^[n] c) % 2 ^ 32 = (c + n) % 2 ^ 32 := by
  induction n with
  | zero => intro c; simp
  | succ m ih =>
    intro c
    rw [Function.iterate_succ_apply, ih (inc32 c)]
    have h := wrap32_emod (c + 1)
    rw [show inc32 c = wrap32 (c + 1) from rfl]
    have e2 : (2 : ℤ) ^ 32 = 4294967296 := by norm_num
    rw [e2] at h ⊢
    push_cast
    omega

/-- As long as the counter does not overflow, `n` wrapped increments add
exactly `n`. -/
theorem inc32_iter_of_lt (n : ℕ) : ∀ c : ℤ,
    -2 ^ 31 ≤ c → c + n < 2 ^ 31 → inc32^[n] c = c + n := by
  induction n with
  | zero => intro c h1 h2; simp
  | succ m ih =>
    intro c h1 h2
    have hm : (0 : ℤ) ≤ (m : ℤ) := Int.natCast_nonneg m
    push_cast at h2
    have hc1 : inc32 c = c + 1 := by
      rw [show inc32 c = wrap32 (c + 1) from rfl]
      exact wrap32_eq_self (c + 1) (by linarith) (by linarith)
    rw [Function.iterate_succ_apply, hc1,
      ih (c + 1) (by linarith) (by push_cast; linarith)]
    push_cast
    ring

/-- When the idle phase is non-positive (`load = 100` gives
`idle_time = 0`), the worker never sleeps. -/
theorem worker_loop_no_sleep (fuelO fuelI : ℕ) (env : Env) :
    ∀ (i : ℕ) (et bt it : ℚ) (c : ℤ), it ≤ 0 →
      ∀ e ∈ (worker_loop fuelO fuelI env i et bt it c).2.2,
        ∀ d, e ≠ Event.sleep d := by
  induction fuelO with
  | zero => intro i et bt it c hit e he; simp [worker_loop] at he
  | succ n ih =>
    intro i et bt it c hit e he
    have h3 : ¬ 0 < it := by linarith
    have hb := busy_loop_spec fuelI env (i + 3) (env.time (i + 2)) bt c
    simp only [worker_loop] at he
    split_ifs at he with h1 h2 <;> simp at he
    rcases he with h | h
    · simp [hb.2 e h]
    · exact ih _ et bt it _ hit e h

/-- With a non-positive busy budget (`load = 0` gives `busy_time = 0`) and
a monotone clock, the worker never increments the counter and every event
it emits is a sleep. -/
theorem worker_loop_busy_nonpos (fuelO fuelI : ℕ) (env : Env)
    (hm : Monotone env.time) :
    ∀ (i : ℕ) (et bt it : ℚ) (c : ℤ), bt ≤ 0 →
      (worker_loop fuelO fuelI env i et bt it c).2.1 = c ∧
      ∀ e ∈ (worker_loop fuelO fuelI env i et bt it c).2.2,
        ∃ d, e = Event.sleep d := by
  induction fuelO with
  | zero => intro i et bt it c hbt; simp [worker_loop]
  | succ n ih =>
    intro i et bt it c hbt
    have hb := busy_loop_nonpos fuelI env (i + 3) (env.time (i + 2)) bt c hbt
      (hm (by omega))
    simp only [worker_loop]
    split_ifs with h1 h2 h3 h4 <;>
      simp_all [fun j d => (ih j et bt it d hbt).1] <;>
      intro e he <;>
      exact (ih _ et bt it _ hbt).2 e he

/-! ### Helper lemma about `stress_status` -/

/-- Anatomy of a successful `stress_status` read: the only state change is
the lazy `running := False` flip (when `now` has passed the recorded
`end_time`, default 0), `iterations` is the counter (default 0), the
reported flag is read after the flip, and `remaining_seconds` is the
`int()` truncation of the computed `remaining`. -/
theorem stress_status_some (s : ControllerState) (now : ℚ)
    (s' : ControllerState) (r : StatusResponse)
    (h : stress_status s now = some (s', r)) :
    s' = { s with cpu_stress_status_data :=
            if s.cpu_stress_status_data.end_time.getD 0 ≤ now then
              { s.cpu_stress_status_data with running := some false }
            else s.cpu_stress_status_data } ∧
    r.iterations = s.global_iterations.getD 0 ∧
    r.running = (if s.cpu_stress_status_data.end_time.getD 0 ≤ now then
                   ({ s.cpu_stress_status_data with running := some false }
                     : StatusData)
                 else s.cpu_stress_status_data).running.getD false ∧
    ∃ remaining, status_remaining s.cpu_stress_status_data now = some remaining
      ∧ r.remaining_seconds = int_py remaining := by
  unfold stress_status at h
  rcases Option.map_eq_some'.mp h with ⟨remaining, hrem, heq⟩
  obtain ⟨hs', hr⟩ := Prod.mk.injEq .. ▸ heq
  subst hs'
  have hit : r.iterations = s.global_iterations.getD 0 := by rw [← hr]
  have hrs : r.remaining_seconds = int_py remaining := by rw [← hr]
  exact ⟨rfl, hit, by rw [← hr], remaining, hrem, hrs⟩

/-! ### Claim theorems -/

/-- C1: `start(duration, load)` with `duration ≤ 0` or `load` outside
`[0, 100]` fails synchronously with `InvalidParameter`, spawns no worker
and mutates no controller state — the post-state equals the pre-state and
the action trace is empty; and every `duration > 0`, `0 ≤ load ≤ 100`
passes the validation check (the call returns `ok`). -/
theorem start_validation (s : ControllerState) (duration load : ℤ)
    (now1 now2 : ℚ) (cpu_count : Option ℕ) :
    ((duration ≤ 0 ∨ load < 0 ∨ 100 < load) →
      start_cpu_stress s duration load now1 now2 cpu_count =
        (Except.error StressError.invalidParameter, s, [])) ∧
    (0 < duration → 0 ≤ load → load ≤ 100 →
      ∃ resp s' evs,
        start_cpu_stress s duration load now1 now2 cpu_count =
          (Except.ok resp, s', evs)) := by
  constructor
  · intro h
    have hc : duration ≤ 0 ∨ ¬ (0 ≤ load ∧ load ≤ 100) := by omega
    unfold start_cpu_stress
    rw [if_pos hc]
  · intro h1 h2 h3
    have hc : ¬ (duration ≤ 0 ∨ ¬ (0 ≤ load ∧ load ≤ 100)) := by omega
    unfold start_cpu_stress
    rw [if_neg hc]
    exact ⟨_, _, _, rfl⟩

/-- C1 witness: `start(0, 50)` is rejected leaving the initial state
untouched; `start(5, 50)` passes validation. -/
theorem start_validation_witness :
    ((0 : ℤ) ≤ 0 ∨ (50 : ℤ) < 0 ∨ 100 < (50 : ℤ)) ∧
    start_cpu_stress initialState 0 50 0 0 none =
      (Except.error StressError.invalidParameter, initialState, []) ∧
    (∃ resp s' evs, start_cpu_stress initialState 5 50 0 0 (some 4) =
      (Except.ok resp, s', evs)) :=
  ⟨Or.inl le_rfl,
   (start_validation initialState 0 50 0 0 none).1 (Or.inl le_rfl),
   (start_validation initialState 5 50 0 0 (some 4)).2 (by norm_num)
     (by norm_num) (by norm_num)⟩

/-- C6: the worker's duty-cycle split is
`busy_time = cycle_time * load/100` and `idle_time = cycle_time - busy_time`;
with `load = 0` the busy phase is empty (given a monotone clock the worker
never increments the shared counter and every event it emits is a sleep),
and with `load = 100` the idle phase is 0 and the worker never sleeps. -/
theorem cpu_worker_duty_cycle (fuelO fuelI : ℕ) (env : Env) (i : ℕ)
    (end_time cycle_time : ℚ) (c : ℤ) :
    (∀ load : ℤ, busy_time_of cycle_time load = cycle_time * ((load : ℚ) / 100)
      ∧ idle_time_of cycle_time load = cycle_time - busy_time_of cycle_time load) ∧
    busy_time_of cycle_time 0 = 0 ∧
    idle_time_of cycle_time 100 = 0 ∧
    (Monotone env.time →
      (cpu_worker fuelO fuelI env i end_time 0 cycle_time c).2.1 = c ∧
      ∀ e ∈ (cpu_worker fuelO fuelI env i end_time 0 cycle_time c).2.2,
        ∃ d, e = Event.sleep d) ∧
    (∀ e ∈ (cpu_worker fuelO fuelI env i end_time 100 cycle_time c).2.2,
      ∀ d, e ≠ Event.sleep d) := by
  have hb0 : busy_time_of cycle_time 0 = 0 := by norm_num [busy_time_of]
  have hi100 : idle_time_of cycle_time 100 = 0 := by
    norm_num [idle_time_of, busy_time_of]
  refine ⟨fun load => ⟨rfl, rfl⟩, hb0, hi100, ?_, ?_⟩
  · intro hm
    have := worker_loop_busy_nonpos fuelO fuelI env hm i end_time
      (busy_time_of cycle_time 0) (idle_time_of cycle_time 0) c (le_of_eq hb0)
    exact ⟨this.1, this.2⟩
  · intro e he d
    exact worker_loop_no_sleep fuelO fuelI env i end_time
      (busy_time_of cycle_time 100) (idle_time_of cycle_time 100) c
      (le_of_eq hi100) e he d

/-- C6 witness: with a constant (hence monotone) clock, a `load = 0` worker
leaves the counter unchanged and emits only sleeps, and a `load = 100`
worker emits no sleep. -/
theorem cpu_worker_duty_cycle_witness :
    Monotone (Env.mk (fun _ => 0) (fun _ => false)).time ∧
    ((cpu_worker 2 2 (Env.mk (fun _ => 0) (fun _ => false)) 0 1 0 (1/10)
        5).2.1 = 5 ∧
      ∀ e ∈ (cpu_worker 2 2 (Env.mk (fun _ => 0) (fun _ => false)) 0 1 0
          (1/10) 5).2.2, ∃ d, e = Event.sleep d) ∧
    (∀ e ∈ (cpu_worker 2 2 (Env.mk (fun _ => 0) (fun _ => false)) 0 1 100
        (1/10) 5).2.2, ∀ d, e ≠ Event.sleep d) :=
  ⟨monotone_const,
   ((cpu_worker_duty_cycle 2 2 (Env.mk (fun _ => 0) (fun _ => false)) 0 1
      (1/10) 5).2.2.2.1 monotone_const),
   ((cpu_worker_duty_cycle 2 2 (Env.mk (fun _ => 0) (fun _ => false)) 0 1
      (1/10) 5).2.2.2.2)⟩

/-- C7: a worker whose first clock read is already past `end_time` performs
zero iterations — the counter is unchanged, the trace is empty (so the
shared counter is never incremented) — and exits at its first check; and
the loop likewise exits as soon as a check observes the stop flag set. -/
theorem cpu_worker_exit (fuelO fuelI : ℕ) (env : Env) (i : ℕ)
    (end_time cycle_time : ℚ) (load c : ℤ) :
    (end_time ≤ env.time i →
      cpu_worker (fuelO + 1) fuelI env i end_time load cycle_time c =
        (i + 1, c, [])) ∧
    (env.time i < end_time → env.stopv (i + 1) = true →
      cpu_worker (fuelO + 1) fuelI env i end_time load cycle_time c =
        (i + 2, c, [])) := by
  constructor
  · intro h
    have hlt : ¬ env.time i < end_time := not_lt.mpr h
    simp [cpu_worker, worker_loop, hlt]
  · intro h hstop
    simp [cpu_worker, worker_loop, h, hstop]

/-- C7 witness: a worker launched at time 5 with deadline 3 exits at once
with no increment, and one launched before the deadline but observing the
stop flag exits at once. -/
theorem cpu_worker_exit_witness :
    ((3 : ℚ) ≤ (Env.mk (fun _ => 5) (fun _ => true)).time 0 ∧
      cpu_worker 1 1 (Env.mk (fun _ => 5) (fun _ => true)) 0 3 50 (1/10) 7 =
        (1, 7, [])) ∧
    ((Env.mk (fun _ => 5) (fun _ => true)).time 0 < 9 ∧
      (Env.mk (fun _ => 5) (fun _ => true)).stopv 1 = true ∧
      cpu_worker 1 1 (Env.mk (fun _ => 5) (fun _ => true)) 0 9 50 (1/10) 7 =
        (2, 7, [])) :=
  ⟨⟨by norm_num,
    (cpu_worker_exit 0 1 (Env.mk (fun _ => 5) (fun _ => true)) 0 3 (1/10)
      50 7).1 (by norm_num)⟩,
   ⟨by norm_num, rfl,
    (cpu_worker_exit 0 1 (Env.mk (fun _ => 5) (fun _ => true)) 0 9 (1/10)
      50 7).2 (by norm_num) rfl⟩⟩

/-- C2 counterexample: the claim says a superseding `start` retires the old
run by requesting stop and waiting a bounded time before forcefully
terminating stragglers.  On a state with one live worker, the actual action
trace of `start(5, 50)` is an immediate forceful termination followed by
the new spawn — it contains no stop request and no join at all. -/
theorem start_supersede_counterexample :
    activeRunState.cpu_stress_processes ≠ [] ∧
    (start_cpu_stress activeRunState 5 50 10 10 (some 1)).2.2 =
      [Event.terminate 0, Event.spawn 0] ∧
    Event.setStopFlag ∉
      (start_cpu_stress activeRunState 5 50 10 10 (some 1)).2.2 ∧
    ∀ p t, Event.joinTimeout p t ∉
      (start_cpu_stress activeRunState 5 50 10 10 (some 1)).2.2 := by
  refine ⟨by decide, by decide, by decide, ?_⟩
  intro p t hmem
  have htr : (start_cpu_stress activeRunState 5 50 10 10 (some 1)).2.2 =
      [Event.terminate 0, Event.spawn 0] := by decide
  rw [htr] at hmem
  simp at hmem

/-- C2 amended: a superseding `start` with valid parameters first
forcefully terminates each old worker — immediately, with no stop request
and no bounded-time join — before allocating the new run's shared state;
afterwards exactly one run is active, its worker list matching the
computed parallelism, with a fresh counter starting at 0, so the old run's
count is not visible: any status read of the new state reports
`iterations` from the new counter, 0 until the new workers increment. -/
theorem start_supersede (s : ControllerState) (duration load : ℤ)
    (now1 now2 : ℚ) (cpu_count : Option ℕ)
    (hd : 0 < duration) (h0 : 0 ≤ load) (h1 : load ≤ 100) :
    ∃ resp s',
      start_cpu_stress s duration load now1 now2 cpu_count =
        (Except.ok resp, s',
          s.cpu_stress_processes.map Event.terminate ++
            (List.range (workers_of cpu_count)).map Event.spawn) ∧
      s'.global_iterations = some 0 ∧
      s'.stop_flag = some false ∧
      s'.cpu_stress_processes = List.range (workers_of cpu_count) ∧
      s'.cpu_stress_status_data.running = some true ∧
      resp.workers = workers_of cpu_count ∧
      (∀ (now : ℚ) (s2 : ControllerState) (r : StatusResponse),
        stress_status s' now = some (s2, r) → r.iterations = 0) := by
  have hc : ¬ ((duration : ℤ) ≤ 0 ∨ ¬ (0 ≤ load ∧ load ≤ 100)) := by omega
  unfold start_cpu_stress
  rw [if_neg hc]
  refine ⟨_, _, rfl, rfl, rfl, rfl, rfl, rfl, ?_⟩
  intro now s2 r h
  simpa using (stress_status_some _ now s2 r h).2.1

/-- C2 witness: superseding `start(5, 50)` on the mid-run state (old
counter at 42) terminates the old worker first, allocates a fresh counter
at 0, and leaves exactly one active run. -/
theorem start_supersede_witness :
    (0 : ℤ) < 5 ∧ (0 : ℤ) ≤ 50 ∧ (50 : ℤ) ≤ 100 ∧
    (∃ resp s',
      start_cpu_stress activeRunState 5 50 10 10 (some 1) =
        (Except.ok resp, s',
          activeRunState.cpu_stress_processes.map Event.terminate ++
            (List.range (workers_of (some 1))).map Event.spawn) ∧
      s'.global_iterations = some 0 ∧
      s'.stop_flag = some false ∧
      s'.cpu_stress_processes = List.range (workers_of (some 1)) ∧
      s'.cpu_stress_status_data.running = some true ∧
      resp.workers = workers_of (some 1) ∧
      (∀ (now : ℚ) (s2 : ControllerState) (r : StatusResponse),
        stress_status s' now = some (s2, r) → r.iterations = 0)) :=
  ⟨by norm_num, by norm_num, by norm_num,
   start_supersede activeRunState 5 50 10 10 (some 1) (by norm_num)
     (by norm_num) (by norm_num)⟩

/-- C3: a `stress_status` read returns `remaining_seconds = 0` (and reports
`running = false`) when `running` is false; when `running` is true with a
recorded `end_time`, the computed remaining value is `max 0 (end_time - now)`;
and whenever `now ≥ end_time` the read itself flips `running` to false in
the stored state, so the returned snapshot reports `running = false` —
lazy completion, no background timer. -/
theorem status_lazy_completion (s : ControllerState) (now et : ℚ)
    (s' : ControllerState) (r : StatusResponse)
    (h : stress_status s now = some (s', r)) :
    (s.cpu_stress_status_data.running.getD false = false →
      r.remaining_seconds = 0 ∧ r.running = false ∧
      status_remaining s.cpu_stress_status_data now = some 0) ∧
    (s.cpu_stress_status_data.running = some true →
      s.cpu_stress_status_data.end_time = some et →
      status_remaining s.cpu_stress_status_data now = some (max 0 (et - now))
        ∧
      (et ≤ now →
        r.running = false ∧ s'.cpu_stress_status_data.running = some false))
    := by
  obtain ⟨hs', hit, hrun, remaining, hrem, hrs⟩ := stress_status_some s now s' r h
  constructor
  · intro hfalse
    have hr0 : status_remaining s.cpu_stress_status_data now = some 0 := by
      simp [status_remaining, hfalse]
    have : remaining = 0 := by
      rw [hrem] at hr0; exact Option.some_inj.mp hr0
    subst this
    refine ⟨by simp [hrs, int_py], ?_, hr0⟩
    rw [hrun]
    split_ifs <;> simp [hfalse]
  · intro htrue het
    refine ⟨by simp [status_remaining, htrue, het], ?_⟩
    intro hle
    have hcond : s.cpu_stress_status_data.end_time.getD 0 ≤ now := by
      simp [het, hle]
    constructor
    · rw [hrun, if_pos hcond]
      rfl
    · rw [hs']
      simp [hcond]

/-- C3 witness: reading the 1.9-seconds-left state at `now = 2` (past the
deadline) flips `running` off, and reading a stopped state reports 0. -/
theorem status_lazy_completion_witness :
    stress_status runState19 2 =
      some ({ runState19 with cpu_stress_status_data :=
                { runState19.cpu_stress_status_data with
                    running := some false } },
            { running := false, remaining_seconds := 0, iterations := 3 }) ∧
    runState19.cpu_stress_status_data.running = some true ∧
    runState19.cpu_stress_status_data.end_time = some (19 / 10) ∧
    (19 / 10 : ℚ) ≤ 2 ∧
    status_remaining runState19.cpu_stress_status_data 2 =
      some (max 0 ((19 / 10 : ℚ) - 2)) ∧
    ({ running := false, remaining_seconds := 0, iterations := 3 }
        : StatusResponse).running = false := by
  have h : stress_status runState19 2 =
      some ({ runState19 with cpu_stress_status_data :=
                { runState19.cpu_stress_status_data with
                    running := some false } },
            { running := false, remaining_seconds := 0, iterations := 3 }) :=
    by norm_num [stress_status, status_remaining, runState19, int_py]
  have hmain := (status_lazy_completion runState19 2 (19 / 10) _ _ h).2
    rfl rfl
  exact ⟨h, rfl, rfl, by norm_num, hmain.1, (hmain.2 (by norm_num)).1⟩

/-- C4: `stop` sets the shared stop flag exactly when one exists, emits a
bounded `join(timeout=1)` for each worker (never an unbounded wait), marks
`running = false` unconditionally, clears the worker-handle list, returns
the success message, and every status read of the resulting state reports
`running = false`. -/
theorem stop_spec (s : ControllerState) :
    (stop_cpu_stress s).2.1.stop_flag = s.stop_flag.map (fun _ => true) ∧
    (stop_cpu_stress s).2.1.cpu_stress_status_data.running = some false ∧
    (stop_cpu_stress s).2.1.cpu_stress_processes = [] ∧
    (stop_cpu_stress s).2.2 =
      (match s.stop_flag with
       | none => []
       | some _ => [Event.setStopFlag]) ++
        s.cpu_stress_processes.map (fun p => Event.joinTimeout p 1) ∧
    (stop_cpu_stress s).1 = { message := "CPU stress test stopped" } ∧
    (∀ (now : ℚ) (s2 : ControllerState) (r : StatusResponse),
      stress_status (stop_cpu_stress s).2.1 now = some (s2, r) →
      r.running = false) := by
  refine ⟨rfl, rfl, rfl, rfl, rfl, ?_⟩
  intro now s2 r h
  have hrun := (stress_status_some _ now s2 r h).2.2.1
  rw [hrun]
  split_ifs <;> simp [stop_cpu_stress]

/-- C4 witness: stopping the mid-run state sets the flag, joins the worker
with timeout 1, and a status read immediately afterwards reports
`running = false`. -/
theorem stop_spec_witness :
    (stop_cpu_stress activeRunState).2.1.stop_flag = some true ∧
    (stop_cpu_stress activeRunState).2.2 =
      [Event.setStopFlag, Event.joinTimeout 0 1] ∧
    (∀ (s2 : ControllerState) (r : StatusResponse),
      stress_status (stop_cpu_stress activeRunState).2.1 0 = some (s2, r) →
      r.running = false) :=
  ⟨rfl, rfl, fun s2 r h => (stop_spec activeRunState).2.2.2.2.2 0 s2 r h⟩

/-- C5: `stop` is idempotent — on any state, a second `stop` yields exactly
the same controller state and the same success response; on the
never-started initial state it still succeeds and the externally observed
status snapshot is unchanged by it; and after any `stop` a status read
reports `running = false`. -/
theorem stop_idempotent (s : ControllerState) (now : ℚ) :
    (stop_cpu_stress (stop_cpu_stress s).2.1).2.1 = (stop_cpu_stress s).2.1 ∧
    (stop_cpu_stress (stop_cpu_stress s).2.1).1 = (stop_cpu_stress s).1 ∧
    (stress_status (stop_cpu_stress initialState).2.1 now).map Prod.snd =
      (stress_status initialState now).map Prod.snd ∧
    (∀ (s2 : ControllerState) (r : StatusResponse),
      stress_status (stop_cpu_stress s).2.1 now = some (s2, r) →
      r.running = false) := by
  refine ⟨?_, rfl, ?_, ?_⟩
  · cases hf : s.stop_flag <;> simp [stop_cpu_stress, hf]
  · by_cases h0 : (0 : ℚ) ≤ now <;>
      simp [stress_status, status_remaining, stop_cpu_stress, initialState,
        StatusData.empty, int_py, h0]
  · intro s2 r h
    have hrun := (stress_status_some _ now s2 r h).2.2.1
    rw [hrun]
    split_ifs <;> simp [stop_cpu_stress]

/-- C5 witness: two stops on the never-started initial state agree, the
status snapshot is the one the untouched initial state yields, and a
status read after the stop reports `running = false`. -/
theorem stop_idempotent_witness :
    (stop_cpu_stress (stop_cpu_stress initialState).2.1).2.1 =
      (stop_cpu_stress initialState).2.1 ∧
    (stress_status (stop_cpu_stress initialState).2.1 0).map Prod.snd =
      (stress_status initialState 0).map Prod.snd ∧
    (∀ (s2 : ControllerState) (r : StatusResponse),
      stress_status (stop_cpu_stress initialState).2.1 0 = some (s2, r) →
      r.running = false) :=
  ⟨(stop_idempotent initialState 0).1,
   (stop_idempotent initialState 0).2.2.1,
   (stop_idempotent initialState 0).2.2.2⟩

/-- C8 counterexample: the claim says every operation a worker performs on
the shared counter leaves it unchanged or increases it.  The counter is
`multiprocessing.Value('i', 0)`, a 32-bit signed C int that wraps silently:
a single locked increment performed by the busy loop at counter value
`2^31 - 1 = 2147483647` stores `-2^31 = -2147483648`, a decrease. -/
theorem iteration_counter_monotone_counterexample :
    (busy_loop 1 (Env.mk (fun _ => 0) (fun _ => false)) 0 0 1
        2147483647).2.1 = -2147483648 ∧
    (-2147483648 : ℤ) < 2147483647 := by
  constructor
  · norm_num [busy_loop, inc32, wrap32]
  · norm_num

/-- C8 amended: the shared counter is a 32-bit signed C int, so each locked
worker increment adds 1 modulo `2^32` — it increases the counter by one
except at the 32-bit maximum, where it wraps to `-2^31`; a worker run's
final counter is the #increments-fold wrapped increment of its initial
value, hence modulo `2^32` no update is lost, and as long as the counter
does not overflow the run adds exactly its increment count, so the counter
never decreases; a `stress_status` read leaves the counter untouched, and
two status reads between which the counter only grew report non-decreasing
`iterations`. -/
theorem iteration_counter_wrap_monotone :
    (∀ c : ℤ, -2 ^ 31 ≤ c → c + 1 < 2 ^ 31 → inc32 c = c + 1) ∧
    inc32 (2 ^ 31 - 1) = -2 ^ 31 ∧
    (∀ (fuelO fuelI : ℕ) (env : Env) (i : ℕ) (et bt it : ℚ) (c : ℤ),
      (worker_loop fuelO fuelI env i et bt it c).2.1 =
        inc32^[(worker_loop fuelO fuelI env i et bt it c).2.2.countP
               (fun e => decide (e = Event.incr))] c ∧
      (worker_loop fuelO fuelI env i et bt it c).2.1 % 2 ^ 32 =
        (c + (((worker_loop fuelO fuelI env i et bt it c).2.2.countP
               (fun e => decide (e = Event.incr))) : ℤ)) % 2 ^ 32 ∧
      (-2 ^ 31 ≤ c →
        c + (((worker_loop fuelO fuelI env i et bt it c).2.2.countP
              (fun e => decide (e = Event.incr))) : ℤ) < 2 ^ 31 →
        (worker_loop fuelO fuelI env i et bt it c).2.1 =
          c + (((worker_loop fuelO fuelI env i et bt it c).2.2.countP
                (fun e => decide (e = Event.incr))) : ℤ) ∧
        c ≤ (worker_loop fuelO fuelI env i et bt it c).2.1)) ∧
    (∀ (s : ControllerState) (now : ℚ) (s' : ControllerState)
        (r : StatusResponse), stress_status s now = some (s', r) →
      s'.global_iterations = s.global_iterations) ∧
    (∀ (s1 s2 : ControllerState) (t1 t2 : ℚ)
        (s1' s2' : ControllerState) (r1 r2 : StatusResponse),
      stress_status s1 t1 = some (s1', r1) →
      stress_status s2 t2 = some (s2', r2) →
      s1.global_iterations.getD 0 ≤ s2.global_iterations.getD 0 →
      r1.iterations ≤ r2.iterations) := by
  refine ⟨?_, ?_, ?_, ?_, ?_⟩
  · intro c h1 h2
    rw [show inc32 c = wrap32 (c + 1) from rfl]
    exact wrap32_eq_self (c + 1) (by linarith) h2
  · rw [show inc32 (2 ^ 31 - 1) = wrap32 (2 ^ 31) from by norm_num [inc32]]
    unfold wrap32
    norm_num
  · intro fuelO fuelI env i et bt it c
    have hiter := worker_loop_iter fuelO fuelI env i et bt it c
    refine ⟨hiter, by rw [hiter]; exact inc32_iter_emod _ c, ?_⟩
    intro hlo hhi
    have hex := inc32_iter_of_lt
      ((worker_loop fuelO fuelI env i et bt it c).2.2.countP
        (fun e => decide (e = Event.incr))) c hlo hhi
    rw [hiter, hex]
    exact ⟨rfl, le_add_of_nonneg_right (Int.natCast_nonneg _)⟩
  · intro s now s' r h
    rw [(stress_status_some s now s' r h).1]
  · intro s1 s2 t1 t2 s1' s2' r1 r2 h1 h2 hle
    rw [(stress_status_some s1 t1 s1' r1 h1).2.1,
        (stress_status_some s2 t2 s2' r2 h2).2.1]
    exact hle

/-- C8 witness: an in-range increment adds one; a concrete non-overflowing
worker run adds exactly its increment count and does not decrease the
counter; concrete status reads leave the (absent) counter untouched and
report non-decreasing iterations. -/
theorem iteration_counter_wrap_monotone_witness :
    (-2 ^ 31 ≤ (5 : ℤ) ∧ (5 : ℤ) + 1 < 2 ^ 31 ∧ inc32 5 = 5 + 1) ∧
    (-2 ^ 31 ≤ (7 : ℤ) ∧
      (7 : ℤ) + (((worker_loop 1 1 (Env.mk (fun _ => 5) (fun _ => false))
          0 3 1 1 7).2.2.countP (fun e => decide (e = Event.incr))) : ℤ)
        < 2 ^ 31 ∧
      (worker_loop 1 1 (Env.mk (fun _ => 5) (fun _ => false))
          0 3 1 1 7).2.1 =
        7 + (((worker_loop 1 1 (Env.mk (fun _ => 5) (fun _ => false))
          0 3 1 1 7).2.2.countP (fun e => decide (e = Event.incr))) : ℤ) ∧
      (7 : ℤ) ≤ (worker_loop 1 1 (Env.mk (fun _ => 5) (fun _ => false))
          0 3 1 1 7).2.1) ∧
    (stress_status initialState 0 =
        some (statusInitState, statusInitResponse) ∧
      statusInitState.global_iterations = initialState.global_iterations ∧
      statusInitResponse.iterations ≤ statusInitResponse.iterations) := by
  have htr : (worker_loop 1 1 (Env.mk (fun _ => 5) (fun _ => false))
      0 3 1 1 7) = (1, 7, []) := by
    norm_num [worker_loop]
  have hlo : -2 ^ 31 ≤ (7 : ℤ) := by norm_num
  have hhi : (7 : ℤ) + (((worker_loop 1 1
      (Env.mk (fun _ => 5) (fun _ => false)) 0 3 1 1 7).2.2.countP
        (fun e => decide (e = Event.incr))) : ℤ) < 2 ^ 31 := by
    rw [htr]; norm_num
  have h : stress_status initialState 0 =
      some (statusInitState, statusInitResponse) := by
    norm_num [stress_status, status_remaining, initialState, StatusData.empty,
      statusInitState, statusInitResponse, int_py]
  exact ⟨⟨by norm_num, by norm_num,
      iteration_counter_wrap_monotone.1 5 (by norm_num) (by norm_num)⟩,
    ⟨hlo, hhi,
      ((iteration_counter_wrap_monotone.2.2.1 1 1
        (Env.mk (fun _ => 5) (fun _ => false)) 0 3 1 1 7).2.2 hlo hhi).1,
      ((iteration_counter_wrap_monotone.2.2.1 1 1
        (Env.mk (fun _ => 5) (fun _ => false)) 0 3 1 1 7).2.2 hlo hhi).2⟩,
    ⟨h, iteration_counter_wrap_monotone.2.2.2.1 initialState 0 _ _ h,
      iteration_counter_wrap_monotone.2.2.2.2 initialState initialState 0 0
        _ _ _ _ h h le_rfl⟩⟩

/-- C9: the `iterations` field of a status snapshot equals the current
shared counter value (`Option.getD 0`, i.e. the counter if allocated), it
is 0 whenever no counter was ever allocated, and the import-time initial
state indeed has no counter. -/
theorem status_iterations_counter (s : ControllerState) (now : ℚ)
    (s' : ControllerState) (r : StatusResponse)
    (h : stress_status s now = some (s', r)) :
    r.iterations = s.global_iterations.getD 0 ∧
    (s.global_iterations = none → r.iterations = 0) ∧
    initialState.global_iterations = none := by
  have hit := (stress_status_some s now s' r h).2.1
  exact ⟨hit, fun hn => by rw [hit, hn]; rfl, rfl⟩

/-- C9 witness: on the never-started initial state a status read reports
`iterations = 0`, matching the absent counter. -/
theorem status_iterations_counter_witness :
    stress_status initialState 3 = some (statusInitState, statusInitResponse)
      ∧
    statusInitResponse.iterations = initialState.global_iterations.getD 0 ∧
    (initialState.global_iterations = none →
      statusInitResponse.iterations = 0) := by
  have h : stress_status initialState 3 =
      some (statusInitState, statusInitResponse) := by
    norm_num [stress_status, status_remaining, initialState, StatusData.empty,
      statusInitState, statusInitResponse, int_py]
  exact ⟨h, (status_iterations_counter initialState 3 _ _ h).1,
    (status_iterations_counter initialState 3 _ _ h).2.1⟩

/-- C10: the reported `remaining_seconds` is always a non-negative integer;
`int()` truncation toward zero agrees with the floor on the non-negative
remaining value; and for a running state with recorded `end_time` the
reported value is exactly `⌊max 0 (end_time - now)⌋`. -/
theorem remaining_seconds_truncation (s : ControllerState) (now et : ℚ)
    (s' : ControllerState) (r : StatusResponse)
    (h : stress_status s now = some (s', r)) :
    0 ≤ r.remaining_seconds ∧
    (s.cpu_stress_status_data.running = some true →
      s.cpu_stress_status_data.end_time = some et →
      r.remaining_seconds = ⌊max 0 (et - now)⌋ ∧
      int_py (max 0 (et - now)) = ⌊max 0 (et - now)⌋) := by
  obtain ⟨-, -, -, remaining, hrem, hrs⟩ := stress_status_some s now s' r h
  have hnn : 0 ≤ remaining := by
    unfold status_remaining at hrem
    split_ifs at hrem with hb
    · rcases Option.map_eq_some'.mp hrem with ⟨a, -, hret⟩
      rw [← hret]
      exact le_max_left _ _
    · rw [← Option.some_inj.mp hrem]
  have hint : int_py remaining = ⌊remaining⌋ := if_pos hnn
  constructor
  · rw [hrs, hint]
    exact Int.le_floor.mpr (by exact_mod_cast hnn)
  · intro htrue het
    have hm : remaining = max 0 (et - now) := by
      have h2 : status_remaining s.cpu_stress_status_data now =
          some (max 0 (et - now)) := by
        simp [status_remaining, htrue, het]
      rw [hrem] at h2
      exact Option.some_inj.mp h2
    exact ⟨by rw [hrs, hint, hm], if_pos (le_max_left 0 _)⟩

/-- C10 witness: the 1.9-seconds-left state read at `now = 0` reports
`remaining_seconds = 1 = ⌊1.9⌋`. -/
theorem remaining_seconds_truncation_witness :
    stress_status runState19 0 =
      some (runState19,
        { running := true, remaining_seconds := 1, iterations := 3 }) ∧
    runState19.cpu_stress_status_data.running = some true ∧
    runState19.cpu_stress_status_data.end_time = some (19 / 10) ∧
    (0 ≤ (1 : ℤ)) ∧
    (1 : ℤ) = ⌊max 0 ((19 / 10 : ℚ) - 0)⌋ := by
  have h : stress_status runState19 0 =
      some (runState19,
        { running := true, remaining_seconds := 1, iterations := 3 }) := by
    norm_num [stress_status, status_remaining, runState19, int_py]
  refine ⟨h, rfl, rfl,
    (remaining_seconds_truncation runState19 0 (19 / 10) _ _ h).1,
    ((remaining_seconds_truncation runState19 0 (19 / 10) _ _ h).2 rfl
      rfl).1⟩
